import Mathlib

/-!
Verification of the StreamBox backend (Go) against its natural-language
specification.  The Go source is shallowly embedded: `float64` values are
modelled as exact rationals (ℚ), `int64` as ℤ, and the side-effecting
handlers as pure functions that return the value they compute together
with an explicit trace of the effects they perform.
-/

namespace StreamBox

/-- Go's `int64(x)` conversion of a `float64`, which truncates toward zero;
modelled on ℚ. -/
def i64trunc (q : ℚ) : ℤ :=
  if 0 ≤ q then ⌊q⌋ else -⌊-q⌋

/-- One mebibyte (1024 × 1024 bytes). -/
def mib : ℤ := 1024 * 1024

/-!
### Remux-path seek positioning

From `backend/internal/stream/server.go`, `serveTranscoded`:

```go
if seekTime > 0 && sess.Duration > 0 {
    ratio := seekTime / sess.Duration
    bytePos := int64(ratio * float64(sess.FileSize))
    if bytePos > 5*1024*1024 {
        bytePos -= 5 * 1024 * 1024
    } else {
        bytePos = 0
    }
    r, err := sess.NewReaderAt(bytePos)
    ...
} else {
    r := sess.NewReader()   // offset 0
    ...
}
```
-/

/-- Byte offset at which `serveTranscoded` opens the session FileReader,
as a function of the seek time `t`, the probed duration `d` (both seconds,
`float64` modelled as ℚ) and the file size (bytes, `int64` modelled as ℤ). -/
def seekBytePos (seekTime duration : ℚ) (fileSize : ℤ) : ℤ :=
  if 0 < seekTime ∧ 0 < duration then
    let ratio := seekTime / duration
    let bytePos := i64trunc (ratio * (fileSize : ℚ))
    if 5 * mib < bytePos then bytePos - 5 * mib else 0
  else
    0

/-- C1: On the remux path, with `t > 0` and `duration > 0` the reader is
opened at `max 0 (⌊(t / d) · S⌋ - 5 MiB)`; with `t > 0` and `duration = 0`
the seek is ignored (offset 0); with `t = 0` the offset is 0; and whenever
`(t / d) · S ≤ 5 MiB` the offset clamps to 0.  (`float64` arithmetic is
modelled exactly over ℚ.) -/
theorem serveTranscoded_seek_offset (t d : ℚ) (S : ℤ) (hS : 0 ≤ S) :
    (0 < t → 0 < d →
      seekBytePos t d S = max 0 (⌊t / d * (S : ℚ)⌋ - 5 * mib)) ∧
    (0 < t → d = 0 → seekBytePos t d S = 0) ∧
    (t = 0 → seekBytePos t d S = 0) ∧
    (0 < t → 0 < d → t / d * (S : ℚ) ≤ 5 * (mib : ℚ) →
      seekBytePos t d S = 0) := by
  have cast5 : ((5 * mib : ℤ) : ℚ) = 5 * (mib : ℚ) := by push_cast; ring
  refine ⟨?_, ?_, ?_, ?_⟩
  · intro ht hd
    have hx : (0 : ℚ) ≤ t / d * (S : ℚ) :=
      mul_nonneg (div_nonneg ht.le hd.le) (by exact_mod_cast hS)
    simp only [seekBytePos, i64trunc]
    rw [if_pos ⟨ht, hd⟩, if_pos hx]
    by_cases h5 : 5 * mib < ⌊t / d * (S : ℚ)⌋
    · rw [if_pos h5]; omega
    · rw [if_neg h5]; omega
  · intro _ hd
    simp [seekBytePos, hd]
  · intro ht
    simp [seekBytePos, ht]
  · intro ht hd hle
    have hx : (0 : ℚ) ≤ t / d * (S : ℚ) :=
      mul_nonneg (div_nonneg ht.le hd.le) (by exact_mod_cast hS)
    have hfl : ⌊t / d * (S : ℚ)⌋ ≤ 5 * mib := by
      have h1 : ⌊t / d * (S : ℚ)⌋ ≤ ⌊((5 * mib : ℤ) : ℚ)⌋ :=
        Int.floor_le_floor (by rw [cast5]; exact hle)
      rwa [Int.floor_intCast] at h1
    simp only [seekBytePos, i64trunc]
    rw [if_pos ⟨ht, hd⟩, if_pos hx, if_neg (by omega)]

/-- Witness for C1 at `t = 1800`, `d = 3600`, `S = 2147483648`. -/
theorem serveTranscoded_seek_offset_witness :
    (0 : ℤ) ≤ 2147483648 ∧
    ((0 : ℚ) < 1800 → (0 : ℚ) < 3600 →
      seekBytePos 1800 3600 2147483648 =
        max 0 (⌊(1800 : ℚ) / 3600 * ((2147483648 : ℤ) : ℚ)⌋ - 5 * mib)) :=
  ⟨by norm_num, (serveTranscoded_seek_offset 1800 3600 2147483648 (by norm_num)).1⟩

/-- C2 counterexample: at duration 3600.0, file size 2147483648 and
`t = 1800.0`, the reader does NOT start within 1 byte of 1,068,236,800. -/
theorem scenario2_claimed_position_wrong :
    ¬ |seekBytePos 1800 3600 2147483648 - 1068236800| ≤ 1 := by
  have h : seekBytePos 1800 3600 2147483648 = 1068498944 := by
    norm_num [seekBytePos, i64trunc, mib]
  rw [h]
  decide

/-- C2 amended: the reader starts at byte position
1,068,498,944 = 2,147,483,648 × 0.5 − 5 × 2^20. -/
theorem scenario2_actual_position :
    seekBytePos 1800 3600 2147483648 = 1068498944 := by
  norm_num [seekBytePos, i64trunc, mib]

/-!
### Remuxer process supervision

From `serveTranscoded` (after the reader is positioned):

```go
cmd := exec.Command("ffmpeg", args...)
cmd.Stdin = reader
cmd.Stdout = c.Writer
var stderrBuf strings.Builder
cmd.Stderr = &stderrBuf
...
if err := cmd.Start(); err != nil {
    log.Error()...
    c.JSON(http.StatusInternalServerError, ...)
    return
}
err := cmd.Wait()
if err != nil {
    if !strings.Contains(stderrBuf.String(), "Broken pipe") &&
        !strings.Contains(err.Error(), "signal: killed") {
        log.Warn()...Msg("ffmpeg exited with error")
    }
}
```

The handler's side effects on the remuxer process are modelled as an
explicit trace.  Note that the handler contains no call that sends a
signal to the process; `sendTermSignal` is in the effect alphabet so that
its absence from every trace is a provable statement.
-/

/-- Observable effects of `serveTranscoded` on the remuxer process. -/
inductive Effect where
  | startProc
  | logErrorStart
  | respondError (code : ℤ)
  | waitProc
  | sendTermSignal
  | logWarnExit (stderr : String)
  deriving DecidableEq

/-- `hasSubstring s pat` is true iff `pat` occurs contiguously in `s`. -/
def hasSubstring : List Char → List Char → Bool
  | [], pat => pat.isEmpty
  | s@(_ :: rest), pat => pat.isPrefixOf s || hasSubstring rest pat

/-- Go's `strings.Contains s substr`. -/
def goContains (s substr : String) : Bool :=
  hasSubstring s.data substr.data

/-- Effect trace of `serveTranscoded` from `cmd.Start()` to handler return,
parameterised by whether `Start` fails, the error returned by `cmd.Wait()`
(`none` = clean exit), and the captured stderr content. -/
def superviseTrace (startFails : Bool) (waitErr : Option String)
    (stderr : String) : List Effect :=
  if startFails then
    [Effect.startProc, Effect.logErrorStart, Effect.respondError 500]
  else
    [Effect.startProc, Effect.waitProc] ++
      (match waitErr with
        | none => []
        | some msg =>
          if !goContains stderr ("Broken pipe") &&
              !goContains msg ("signal: killed") then
            [Effect.logWarnExit stderr]
          else
            [])

/-- C3 counterexample: on a client disconnect (remuxer exits with error,
stderr reporting a broken pipe), the handler sends no termination signal
to the remuxer. -/
theorem remux_no_term_signal_on_disconnect :
    Effect.sendTermSignal ∉
      superviseTrace false (some ("exit status 1"))
        ("av_interleaved_write_frame(): Broken pipe") := by
  decide

/-- C3 amended: once the remuxer is started, the handler always waits for
its exit (`cmd.Wait`) before returning, so the process is not leaked; and
no trace of the handler (client disconnect included) contains a
termination signal sent to the remuxer. -/
theorem remux_handler_waits_never_signals (waitErr : Option String)
    (stderr : String) :
    Effect.waitProc ∈ superviseTrace false waitErr stderr ∧
    ∀ startFails, Effect.sendTermSignal ∉ superviseTrace startFails waitErr stderr := by
  constructor
  · simp [superviseTrace]
  · intro startFails
    cases startFails
    · cases waitErr
      · simp [superviseTrace]
      · simp only [superviseTrace, if_neg (by simp : ¬ false = true)]
        split <;> simp
    · simp [superviseTrace]

/-- C9: when the remuxer exits with an error, the exit is logged with the
captured stderr content iff the stderr does not report a broken pipe and
the wait error does not report a kill signal. -/
theorem ffmpeg_exit_logged_iff (msg stderr : String) :
    Effect.logWarnExit stderr ∈ superviseTrace false (some msg) stderr ↔
      goContains stderr ("Broken pipe") = false ∧
      goContains msg ("signal: killed") = false := by
  simp only [superviseTrace, if_neg (by simp : ¬ false = true)]
  split <;> rename_i h
  · simp only [Bool.and_eq_true, Bool.not_eq_true'] at h
    simp [h.1, h.2]
  · simp only [Bool.and_eq_true, Bool.not_eq_true'] at h
    constructor
    · intro hmem
      simp at hmem
    · intro ⟨h1, h2⟩
      exact absurd ⟨h1, h2⟩ h

/-!
### Session registry and Manager

From the torrent package (`Session`, `Manager`, `StopSession`,
`GetStatus`, `GetSession`).  The Go `map[string]*Session` guarded by
`sync.RWMutex` is modelled as an association list; each API call is a
pure function from the registry (plus the values read from the
environment: clock, torrent stats, completed bytes) to its result and the
updated registry.  `time.Time` is modelled as a rational number of
seconds, `0` standing for Go's zero `time.Time` (`IsZero`); real clock
readings are positive.
-/

/-- Runtime session state relevant to the claims (from `Session` and its
embedded `StreamSession`): file size, probed duration, transcode flag,
whether the status reader is non-nil with its current read-ahead, and the
speed-estimation sample. -/
structure Session where
  fileSize : ℤ
  duration : ℚ
  needsTranscode : Bool
  hasReader : Bool
  readerReadahead : ℤ
  lastBytes : ℤ
  lastSpeedCheck : ℚ
  lastSpeed : ℤ
  deriving DecidableEq

/-- Session registry (`Manager.sessions`). -/
structure Manager where
  sessions : List (String × Session)
  deriving DecidableEq

/-- `Manager.GetSession`: O(1) map lookup, `nil` when absent. -/
def Manager.GetSession (m : Manager) (id : String) : Option Session :=
  m.sessions.lookup id

/-- Side effects of `Manager.StopSession` on the session's resources. -/
inductive StopEffect where
  | closeReader
  | dropTorrent
  deriving DecidableEq

/-- `Manager.StopSession`: look up the session under the lock; unknown id
fails; otherwise the session is removed from the registry, the status
reader is closed when non-nil, and the torrent is dropped. -/
def Manager.StopSession (m : Manager) (id : String) :
    Except String Unit × Manager × List StopEffect :=
  match m.sessions.lookup id with
  | none => (Except.error ("session not found: " ++ id), m, [])
  | some sess =>
      (Except.ok (),
       ⟨m.sessions.filter (fun p => p.1 != id)⟩,
       (if sess.hasReader then [StopEffect.closeReader] else []) ++
         [StopEffect.dropTorrent])

theorem lookup_filter_out {β : Type} (l : List (String × β)) (id : String) :
    (l.filter (fun p => p.1 != id)).lookup id = none := by
  induction l with
  | nil => rfl
  | cons p t ih =>
      by_cases h : p.1 = id
      · simp [List.filter, h, ih]
      · have hb : (p.1 != id) = true := by
          simp [bne, h]
        simp only [List.filter, hb, List.lookup]
        have : (id == p.1) = false := by
          simp [BEq.beq]
          exact fun he => h he.symm
        simp [this, ih]

/-- C5: `StopSession` succeeds iff the id is registered at the time of the
call; on success the session is removed, the status reader is closed (when
present) and the torrent is dropped, and a second call on the same id then
fails with the not-found error. -/
theorem stopSession_spec (m : Manager) (id : String) :
    ((m.StopSession id).1 = Except.ok () ↔ (m.sessions.lookup id).isSome) ∧
    (∀ sess, m.sessions.lookup id = some sess →
      ((m.StopSession id).2.1.sessions.lookup id = none ∧
       (sess.hasReader = true → StopEffect.closeReader ∈ (m.StopSession id).2.2) ∧
       StopEffect.dropTorrent ∈ (m.StopSession id).2.2 ∧
       ((m.StopSession id).2.1.StopSession id).1 =
         Except.error ("session not found: " ++ id))) := by
  constructor
  · cases h : m.sessions.lookup id with
    | none => simp [Manager.StopSession, h]
    | some sess => simp [Manager.StopSession, h]
  · intro sess h
    have hrm : (m.sessions.filter (fun p => p.1 != id)).lookup id = none :=
      lookup_filter_out m.sessions id
    refine ⟨?_, ?_, ?_, ?_⟩
    · simp [Manager.StopSession, h, hrm]
    · intro hr
      simp [Manager.StopSession, h, hr]
    · cases hr : sess.hasReader <;> simp [Manager.StopSession, h, hr]
    · simp [Manager.StopSession, h, hrm]

/-- Witness for C5 on a one-session registry. -/
theorem stopSession_spec_witness :
    let sess : Session := ⟨100, 0, true, true, 16 * mib, 0, 0, 0⟩
    let m : Manager := ⟨[("a", sess)]⟩
    (m.sessions.lookup "a" = some sess) ∧
    ((m.StopSession "a").2.1.sessions.lookup "a" = none ∧
     (sess.hasReader = true → StopEffect.closeReader ∈ (m.StopSession "a").2.2) ∧
     StopEffect.dropTorrent ∈ (m.StopSession "a").2.2 ∧
     (((m.StopSession "a").2.1.StopSession "a")).1 =
       Except.error ("session not found: " ++ "a")) :=
  ⟨by decide, (stopSession_spec ⟨[("a", ⟨100, 0, true, true, 16 * mib, 0, 0, 0⟩)]⟩ "a").2
    ⟨100, 0, true, true, 16 * mib, 0, 0, 0⟩ (by decide)⟩

/-!
### GetStatus: dynamic read-ahead and speed estimate

From `Manager.GetStatus`:

```go
downloadPct := float64(bytesCompleted) / float64(sess.FileSize) * 100
var readahead int64 = 16 * 1024 * 1024
if stats.ActivePeers < 3 {
    readahead = 64 * 1024 * 1024
} else if downloadPct < 10 {
    readahead = 32 * 1024 * 1024
}
sess.reader.SetReadahead(readahead)

now := time.Now()
var speed int64
if !sess.lastSpeedCheck.IsZero() {
    elapsed := now.Sub(sess.lastSpeedCheck).Seconds()
    if elapsed > 0 {
        speed = int64(float64(bytesCompleted-sess.lastBytes) / elapsed)
        if speed < 0 {
            speed = 0
        }
        sess.lastSpeed = speed
    }
}
sess.lastBytes = bytesCompleted
sess.lastSpeedCheck = now
```
-/

/-- The `StreamStatus` JSON fields relevant to the claims. -/
structure StreamStatus where
  downloadedBytes : ℤ
  totalBytes : ℤ
  downloadSpeed : ℤ
  peersConnected : ℤ
  bufferedPercent : ℚ
  duration : ℚ
  deriving DecidableEq

/-- One `Manager.GetStatus` call on a live session: `activePeers` and
`bytesCompleted` are the values read from the torrent, `now` is the clock
reading.  Returns the reported status and the mutated session. -/
def getStatusStep (sess : Session) (activePeers bytesCompleted : ℤ)
    (now : ℚ) : StreamStatus × Session :=
  let downloadPct : ℚ := (bytesCompleted : ℚ) / (sess.fileSize : ℚ) * 100
  let readahead : ℤ :=
    if activePeers < 3 then 64 * mib
    else if downloadPct < 10 then 32 * mib
    else 16 * mib
  let elapsed : ℚ := now - sess.lastSpeedCheck
  let speedPair : ℤ × ℤ :=
    if sess.lastSpeedCheck ≠ 0 then
      if 0 < elapsed then
        let s0 := i64trunc (((bytesCompleted - sess.lastBytes : ℤ) : ℚ) / elapsed)
        let s := if s0 < 0 then 0 else s0
        (s, s)
      else (0, sess.lastSpeed)
    else (0, sess.lastSpeed)
  (⟨bytesCompleted, sess.fileSize, speedPair.1, activePeers, downloadPct,
      sess.duration⟩,
   { sess with
      readerReadahead := readahead
      lastBytes := bytesCompleted
      lastSpeedCheck := now
      lastSpeed := speedPair.2 })

/-- C7: a `GetStatus` call with a prior sample (`last_ts ≠ 0`) and positive
elapsed time reports `(downloaded − last_bytes) / (now − last_ts)`
truncated to `int64` and clamped at 0, and persists
`{last_bytes, last_ts, last_speed}` on the session; the first call after
creation (`last_ts = 0`) reports speed 0. -/
theorem getStatus_speed_estimate (sess : Session) (activePeers bytesCompleted : ℤ)
    (now : ℚ) :
    (sess.lastSpeedCheck ≠ 0 → 0 < now - sess.lastSpeedCheck →
      ((getStatusStep sess activePeers bytesCompleted now).1.downloadSpeed =
        max 0 (i64trunc (((bytesCompleted - sess.lastBytes : ℤ) : ℚ) /
          (now - sess.lastSpeedCheck))) ∧
       (getStatusStep sess activePeers bytesCompleted now).2.lastSpeed =
        (getStatusStep sess activePeers bytesCompleted now).1.downloadSpeed)) ∧
    (sess.lastSpeedCheck = 0 →
      (getStatusStep sess activePeers bytesCompleted now).1.downloadSpeed = 0) ∧
    (getStatusStep sess activePeers bytesCompleted now).2.lastBytes = bytesCompleted ∧
    (getStatusStep sess activePeers bytesCompleted now).2.lastSpeedCheck = now := by
  refine ⟨?_, ?_, ?_, ?_⟩
  · intro hz he
    simp only [getStatusStep, if_pos hz, if_pos he]
    constructor
    · by_cases hneg :
        i64trunc (((bytesCompleted - sess.lastBytes : ℤ) : ℚ) /
          (now - sess.lastSpeedCheck)) < 0
      · rw [if_pos hneg]; omega
      · rw [if_neg hneg]; omega
    · trivial
  · intro hz
    simp [getStatusStep, hz]
  · rfl
  · rfl

/-- Witness for C7: second call one second after a first call that saw
0 bytes, now seeing 1000 completed bytes, on a 10000-byte file. -/
theorem getStatus_speed_estimate_witness :
    let sess : Session := ⟨10000, 0, true, true, 16 * mib, 0, 5, 0⟩
    ((5 : ℚ) ≠ 0) ∧ ((0 : ℚ) < 6 - 5) ∧
    ((getStatusStep sess 4 1000 6).1.downloadSpeed =
        max 0 (i64trunc (((1000 - sess.lastBytes : ℤ) : ℚ) / (6 - 5))) ∧
     (getStatusStep sess 4 1000 6).2.lastSpeed =
        (getStatusStep sess 4 1000 6).1.downloadSpeed) :=
  ⟨by norm_num, by norm_num,
    (getStatus_speed_estimate ⟨10000, 0, true, true, 16 * mib, 0, 5, 0⟩ 4 1000 6).1
      (by norm_num) (by norm_num)⟩

/-- C8: on each `GetStatus` call the status reader's read-ahead is set to
64 MiB when the torrent has fewer than 3 active peers; otherwise to 32 MiB
when the buffered percentage is below 10; otherwise to 16 MiB. -/
theorem getStatus_readahead_policy (sess : Session) (activePeers bytesCompleted : ℤ)
    (now : ℚ) (_hS : 0 < sess.fileSize) :
    (activePeers < 3 →
      (getStatusStep sess activePeers bytesCompleted now).2.readerReadahead = 64 * mib) ∧
    (¬ activePeers < 3 →
      (bytesCompleted : ℚ) / (sess.fileSize : ℚ) * 100 < 10 →
      (getStatusStep sess activePeers bytesCompleted now).2.readerReadahead = 32 * mib) ∧
    (¬ activePeers < 3 →
      ¬ (bytesCompleted : ℚ) / (sess.fileSize : ℚ) * 100 < 10 →
      (getStatusStep sess activePeers bytesCompleted now).2.readerReadahead = 16 * mib) := by
  refine ⟨?_, ?_, ?_⟩
  · intro hp
    simp [getStatusStep, hp]
  · intro hp hpct
    simp [getStatusStep, hp, hpct]
  · intro hp hpct
    simp [getStatusStep, hp, hpct]

/-- Witness for C8: 2 active peers trigger the 64 MiB read-ahead. -/
theorem getStatus_readahead_policy_witness :
    let sess : Session := ⟨10000, 0, true, true, 16 * mib, 0, 5, 0⟩
    ((0 : ℤ) < 10000) ∧ ((2 : ℤ) < 3) ∧
    (getStatusStep sess 2 1000 6).2.readerReadahead = 64 * mib :=
  ⟨by norm_num, by norm_num,
    (getStatus_readahead_policy ⟨10000, 0, true, true, 16 * mib, 0, 5, 0⟩ 2 1000 6
      (by norm_num)).1 (by norm_num)⟩

/-!
### HTTP endpoints

From `api/stream.go` (`serveStream`, `getStreamStatus`, `stopStream`) and
`stream/server.go` (`ServeStream`).  Query parameters are modelled as
`Option (Option v)`: the outer layer is presence of a non-empty query
value, the inner layer is the result of `strconv.ParseFloat` /
`strconv.Atoi` on it (the string parser itself is left abstract: the
handler branches only on its success and on the parsed value).
-/

/-- `Manager.GetStatus` as called by the status endpoint: unknown ids
fail, otherwise one `getStatusStep` is performed. -/
def Manager.GetStatus (m : Manager) (id : String)
    (activePeers bytesCompleted : ℤ) (now : ℚ) : Except String StreamStatus :=
  match m.sessions.lookup id with
  | none => Except.error ("session not found: " ++ id)
  | some sess => Except.ok (getStatusStep sess activePeers bytesCompleted now).1

/-- How a GET /api/stream/:id request is answered. -/
inductive ServeOutcome where
  | badRequest
  | notFound
  | direct
  | transcoded (seekTime : ℚ) (audioTrack : ℤ)
  deriving DecidableEq

/-- GET /api/stream/:id (api `serveStream` composed with
`Server.ServeStream`): empty id is rejected, unknown id is 404, a
non-transcode session is served directly, and a remux session is piped
through the remuxer with the parsed `t` and `audio` parameters. -/
def serveStreamHandler (m : Manager) (id : String)
    (tParam : Option (Option ℚ)) (audioParam : Option (Option ℤ)) :
    ServeOutcome :=
  if id = "" then ServeOutcome.badRequest
  else
    match m.GetSession id with
    | none => ServeOutcome.notFound
    | some sess =>
        if !sess.needsTranscode then ServeOutcome.direct
        else
          let seekTime : ℚ :=
            match tParam with
            | none => 0
            | some none => 0
            | some (some v) => if 0 < v then v else 0
          let audioTrack : ℤ :=
            match audioParam with
            | none => -1
            | some none => -1
            | some (some n) => if 0 ≤ n then n else -1
          ServeOutcome.transcoded seekTime audioTrack

/-- HTTP status code with which GET /api/stream/:id begins its response. -/
def serveStreamCode (m : Manager) (id : String)
    (tParam : Option (Option ℚ)) (audioParam : Option (Option ℤ)) : ℤ :=
  match serveStreamHandler m id tParam audioParam with
  | ServeOutcome.badRequest => 400
  | ServeOutcome.notFound => 404
  | ServeOutcome.direct => 200
  | ServeOutcome.transcoded _ _ => 200

/-- HTTP status code of GET /api/stream/:id/status (`getStreamStatus`):
every `GetStatus` error is mapped to 500. -/
def getStreamStatusCode (m : Manager) (id : String)
    (activePeers bytesCompleted : ℤ) (now : ℚ) : ℤ :=
  if id = "" then 400
  else
    match m.GetStatus id activePeers bytesCompleted now with
    | Except.error _ => 500
    | Except.ok _ => 200

/-- HTTP status code of DELETE /api/stream/:id (`stopStream`): every
`StopSession` error is mapped to 500. -/
def stopStreamCode (m : Manager) (id : String) : ℤ :=
  if id = "" then 400
  else
    match (m.StopSession id).1 with
    | Except.error _ => 500
    | Except.ok _ => 200

/-- C4 counterexample: on the empty registry and session id "x", the
stream endpoint answers 404 but the status and stop endpoints answer 500,
so not all three answer 404. -/
theorem unknown_id_not_all_404 :
    ¬ (serveStreamCode ⟨[]⟩ ("x") none none = 404 ∧
       getStreamStatusCode ⟨[]⟩ ("x") 0 0 1 = 404 ∧
       stopStreamCode ⟨[]⟩ ("x") = 404) := by
  decide

/-- C4 amended: for every non-empty session id absent from the registry,
GET /stream/:id answers 404 while GET /stream/:id/status and
DELETE /stream/:id answer 500. -/
theorem unknown_id_status_codes (m : Manager) (id : String)
    (activePeers bytesCompleted : ℤ) (now : ℚ)
    (tParam : Option (Option ℚ)) (audioParam : Option (Option ℤ))
    (hid : id ≠ "") (h : m.sessions.lookup id = none) :
    serveStreamCode m id tParam audioParam = 404 ∧
    getStreamStatusCode m id activePeers bytesCompleted now = 500 ∧
    stopStreamCode m id = 500 := by
  refine ⟨?_, ?_, ?_⟩
  · simp [serveStreamCode, serveStreamHandler, Manager.GetSession, hid, h]
  · simp [getStreamStatusCode, Manager.GetStatus, hid, h]
  · simp [stopStreamCode, Manager.StopSession, hid, h]

/-- Witness for C4 (amended) on the empty registry and id "x". -/
theorem unknown_id_status_codes_witness :
    ("x" ≠ "") ∧ (Manager.sessions ⟨[]⟩).lookup ("x") = none ∧
    (serveStreamCode ⟨[]⟩ ("x") none none = 404 ∧
     getStreamStatusCode ⟨[]⟩ ("x") 0 0 1 = 500 ∧
     stopStreamCode ⟨[]⟩ ("x") = 500) :=
  ⟨by decide, by decide,
    unknown_id_status_codes ⟨[]⟩ ("x") 0 0 1 none none (by decide) (by decide)⟩

/-- C10: on a remux session, a `t` value that fails to parse or is not
strictly positive, and an `audio` value that fails to parse or is
negative, are each handled exactly like an absent parameter, and the
request is never rejected over them. -/
theorem malformed_params_ignored (m : Manager) (id : String) (sess : Session)
    (hid : id ≠ "") (hs : m.GetSession id = some sess)
    (ht : sess.needsTranscode = true) :
    (∀ tParam audioParam,
      serveStreamHandler m id tParam audioParam ≠ ServeOutcome.badRequest ∧
      serveStreamHandler m id tParam audioParam ≠ ServeOutcome.notFound) ∧
    (∀ audioParam,
      serveStreamHandler m id (some none) audioParam =
        serveStreamHandler m id none audioParam) ∧
    (∀ v audioParam, v ≤ 0 →
      serveStreamHandler m id (some (some v)) audioParam =
        serveStreamHandler m id none audioParam) ∧
    (∀ tParam,
      serveStreamHandler m id tParam (some none) =
        serveStreamHandler m id tParam none) ∧
    (∀ tParam n, n < 0 →
      serveStreamHandler m id tParam (some (some n)) =
        serveStreamHandler m id tParam none) := by
  refine ⟨?_, ?_, ?_, ?_, ?_⟩
  · intro tParam audioParam
    constructor <;> simp [serveStreamHandler, hid, hs, ht]
  · intro audioParam
    simp [serveStreamHandler, hid, hs, ht]
  · intro v audioParam hv
    have : ¬ (0 : ℚ) < v := not_lt.mpr hv
    simp [serveStreamHandler, hid, hs, ht, this]
  · intro tParam
    simp [serveStreamHandler, hid, hs, ht]
  · intro tParam n hn
    have : ¬ (0 : ℤ) ≤ n := not_le.mpr hn
    simp [serveStreamHandler, hid, hs, ht, this]

/-- Witness for C10 on a one-session registry holding a remux session. -/
theorem malformed_params_ignored_witness :
    let sess : Session := ⟨10000, 0, true, true, 16 * mib, 0, 0, 0⟩
    let m : Manager := ⟨[("a", sess)]⟩
    ("a" ≠ "") ∧ m.GetSession ("a") = some sess ∧ sess.needsTranscode = true ∧
    ∀ audioParam,
      serveStreamHandler m ("a") (some none) audioParam =
        serveStreamHandler m ("a") none audioParam :=
  ⟨by decide, by decide, by decide,
    (malformed_params_ignored ⟨[("a", ⟨10000, 0, true, true, 16 * mib, 0, 0, 0⟩)]⟩
      ("a") ⟨10000, 0, true, true, 16 * mib, 0, 0, 0⟩
      (by decide) (by decide) (by decide)).2.1⟩

/-!
### Video-file selection (`findLargestVideoFile` / `StartStream`)

From the torrent package:

```go
videoExts := map[string]bool{
    ".mp4": true, ".mkv": true, ".avi": true, ".webm": true,
    ".mov": true, ".wmv": true, ".flv": true, ".m4v": true,
}
var largest *atorrent.File
for _, f := range files {
    ext := strings.ToLower(filepath.Ext(f.DisplayPath()))
    if !videoExts[ext] {
        continue
    }
    if largest == nil || f.Length() > largest.Length() {
        largest = f
    }
}
return largest
```

and in `StartStream`:

```go
videoFile := findLargestVideoFile(t.Files())
if videoFile == nil {
    t.Drop()
    return nil, fmt.Errorf("no video file found in torrent")
}
```
-/

/-- A torrent file: its display path and its length in bytes. -/
structure TFile where
  path : String
  length : ℤ
  deriving DecidableEq

/-- Backwards scan of `filepath.Ext`: walk the path from its last
character towards the front, stopping at a path separator; the extension
starts at the last dot.  The first argument is the reversed path, `acc`
holds the characters already passed in their original order. -/
def extRev : List Char → List Char → Option (List Char)
  | [], _ => none
  | c :: rest, acc =>
    if c = '/' then none
    else if c = '.' then some (c :: acc)
    else extRev rest (c :: acc)

/-- Go's `filepath.Ext`: the suffix beginning at the final dot in the
final path element, empty when there is no dot. -/
def filepathExt (p : String) : String :=
  match extRev p.data.reverse [] with
  | none => ""
  | some l => ⟨l⟩

/-- Go's `strings.ToLower` on the ASCII range (every extension in the
video set is ASCII). -/
def goToLower (s : String) : String :=
  ⟨s.data.map fun c =>
    if 'A' ≤ c ∧ c ≤ 'Z' then Char.ofNat (c.toNat + 32) else c⟩

/-- Membership in the `videoExts` set. -/
def isVideoExt (e : String) : Bool :=
  e == (".mp4") || e == (".mkv") || e == (".avi") || e == (".webm") ||
    e == (".mov") || e == (".wmv") || e == (".flv") || e == (".m4v")

/-- Whether a torrent file passes the video-extension filter. -/
def isVideoFile (f : TFile) : Bool :=
  isVideoExt (goToLower (filepathExt f.path))

/-- One iteration of the `findLargestVideoFile` loop. -/
def largestStep (largest : Option TFile) (f : TFile) : Option TFile :=
  if !isVideoFile f then largest
  else
    match largest with
    | none => some f
    | some l => if l.length < f.length then some f else some l

/-- `findLargestVideoFile`. -/
def findLargestVideoFile (files : List TFile) : Option TFile :=
  files.foldl largestStep none

/-- The file-selection step of `Manager.StartStream`, as
`(result, torrent dropped, session created)`. -/
def startStreamSelect (files : List TFile) :
    Except String TFile × Bool × Bool :=
  match findLargestVideoFile files with
  | none => (Except.error ("no video file found in torrent"), true, false)
  | some f => (Except.ok f, false, true)

theorem largest_foldl_spec (files : List TFile) : ∀ acc : Option TFile,
    (files.foldl largestStep acc = none →
      acc = none ∧ ∀ g ∈ files, isVideoFile g = false) ∧
    (∀ f, files.foldl largestStep acc = some f →
      ((f ∈ files ∧ isVideoFile f = true) ∨ acc = some f) ∧
      (∀ g ∈ files, isVideoFile g = true → g.length ≤ f.length) ∧
      (∀ l, acc = some l → l.length ≤ f.length)) := by
  induction files with
  | nil =>
    intro acc
    refine ⟨fun h => ⟨h, by simp⟩, fun f h => ⟨Or.inr h, by simp, ?_⟩⟩
    intro l hl
    rw [hl] at h
    cases h
    exact le_refl _
  | cons f0 fs ih =>
    intro acc
    have hfold : (f0 :: fs).foldl largestStep acc =
        fs.foldl largestStep (largestStep acc f0) := rfl
    by_cases hv : isVideoFile f0 = true
    · -- f0 passes the filter
      have hstepn : largestStep none f0 = some f0 := by
        simp [largestStep, hv]
      have hsteps : ∀ l0 : TFile, largestStep (some l0) f0 =
          if l0.length < f0.length then some f0 else some l0 := by
        intro l0
        simp [largestStep, hv]
      constructor
      · intro h
        rw [hfold] at h
        obtain ⟨h1, _⟩ := (ih (largestStep acc f0)).1 h
        cases acc with
        | none =>
          rw [hstepn] at h1
          cases h1
        | some l0 =>
          rw [hsteps l0] at h1
          split at h1 <;> cases h1
      · intro f h
        rw [hfold] at h
        obtain ⟨hmem, hmax, hacc⟩ := (ih (largestStep acc f0)).2 f h
        have hf0le : f0.length ≤ f.length := by
          cases acc with
          | none =>
            exact hacc f0 hstepn
          | some l0 =>
            by_cases hlt : l0.length < f0.length
            · exact hacc f0 (by rw [hsteps l0]; simp [hlt])
            · have hl0 : l0.length ≤ f.length :=
                hacc l0 (by rw [hsteps l0]; simp [hlt])
              omega
        refine ⟨?_, ?_, ?_⟩
        · rcases hmem with ⟨hin, hvf⟩ | hval
          · exact Or.inl ⟨List.mem_cons_of_mem _ hin, hvf⟩
          · cases acc with
            | none =>
              rw [hstepn] at hval
              cases hval
              exact Or.inl ⟨List.mem_cons_self _ _, hv⟩
            | some l0 =>
              rw [hsteps l0] at hval
              split at hval
              · cases hval
                exact Or.inl ⟨List.mem_cons_self _ _, hv⟩
              · exact Or.inr hval
        · intro g hg hgv
          rcases List.mem_cons.mp hg with hg0 | hgs
          · rw [hg0]; exact hf0le
          · exact hmax g hgs hgv
        · intro l hl
          cases acc with
          | none => cases hl
          | some l0 =>
            cases hl
            by_cases hlt : l.length < f0.length
            · have := hacc f0 (by rw [hsteps l]; simp [hlt])
              omega
            · exact hacc l (by rw [hsteps l]; simp [hlt])
    · -- f0 filtered out
      have hb : isVideoFile f0 = false := by
        cases hvv : isVideoFile f0
        · rfl
        · exact absurd hvv hv
      have hstep : largestStep acc f0 = acc := by
        simp [largestStep, hb]
      rw [hfold, hstep]
      constructor
      · intro h
        obtain ⟨h1, h2⟩ := (ih acc).1 h
        refine ⟨h1, ?_⟩
        intro g hg
        rcases List.mem_cons.mp hg with hg0 | hgs
        · rw [hg0]; exact hb
        · exact h2 g hgs
      · intro f h
        obtain ⟨hmem, hmax, hacc⟩ := (ih acc).2 f h
        refine ⟨?_, ?_, hacc⟩
        · rcases hmem with ⟨hin, hvf⟩ | hval
          · exact Or.inl ⟨List.mem_cons_of_mem _ hin, hvf⟩
          · exact Or.inr hval
        · intro g hg hgv
          rcases List.mem_cons.mp hg with hg0 | hgs
          · rw [hg0] at hgv
            rw [hgv] at hb
            cases hb
          · exact hmax g hgs hgv

/-- C6: among the torrent's files whose case-insensitively lowered
extension lies in the video set, `StartStream` selects one of maximal
length; when no file qualifies it fails with the no-video error, drops the
torrent, and creates no session. -/
theorem startStream_largest_video (files : List TFile) :
    (∀ f, findLargestVideoFile files = some f →
      f ∈ files ∧ isVideoFile f = true ∧
      (∀ g ∈ files, isVideoFile g = true → g.length ≤ f.length) ∧
      startStreamSelect files = (Except.ok f, false, true)) ∧
    (findLargestVideoFile files = none →
      (∀ g ∈ files, isVideoFile g = false) ∧
      startStreamSelect files =
        (Except.error ("no video file found in torrent"), true, false)) := by
  constructor
  · intro f h
    obtain ⟨hmem, hmax, _⟩ := (largest_foldl_spec files none).2 f h
    rcases hmem with ⟨hin, hvf⟩ | hnone
    · exact ⟨hin, hvf, hmax, by simp [startStreamSelect, h]⟩
    · cases hnone
  · intro h
    exact ⟨((largest_foldl_spec files none).1 h).2,
      by simp [startStreamSelect, h]⟩

/-- Witness for C6: among `a.txt`, `Movie.MKV` (700 bytes) and
`sample.mp4` (100 bytes) the selection is `Movie.MKV`. -/
theorem startStream_largest_video_witness :
    findLargestVideoFile
        [⟨"a.txt", 50⟩, ⟨"Movie.MKV", 700⟩, ⟨"sample.mp4", 100⟩] =
      some ⟨"Movie.MKV", 700⟩ ∧
    (⟨"Movie.MKV", 700⟩ ∈
        ([⟨"a.txt", 50⟩, ⟨"Movie.MKV", 700⟩, ⟨"sample.mp4", 100⟩] : List TFile) ∧
     isVideoFile ⟨"Movie.MKV", 700⟩ = true ∧
     (∀ g ∈ ([⟨"a.txt", 50⟩, ⟨"Movie.MKV", 700⟩, ⟨"sample.mp4", 100⟩] : List TFile),
        isVideoFile g = true → g.length ≤ (700 : ℤ)) ∧
     startStreamSelect [⟨"a.txt", 50⟩, ⟨"Movie.MKV", 700⟩, ⟨"sample.mp4", 100⟩] =
       (Except.ok ⟨"Movie.MKV", 700⟩, false, true)) :=
  ⟨by decide,
    (startStream_largest_video
        [⟨"a.txt", 50⟩, ⟨"Movie.MKV", 700⟩, ⟨"sample.mp4", 100⟩]).1
      ⟨"Movie.MKV", 700⟩ (by decide)⟩

end StreamBox
